import Mathlib

/-!
# Shallow embedding of the Semmelweis handwashing dashboard pipeline

Embeds the data-pipeline core of `src/handwashing.py` (the Streamlit
dashboard `app.py`): schema validation, period-key extraction, numeric
coercion, per-period rate computation (`load_data`), the inclusive year
range filter (`filtered`), and the summary aggregation (`safe_rate` and
the KPI block).

Pandas cell values are modelled by `RawVal` (an integer or a string, the
two forms a `Year` / count cell takes after `pd.read_csv`).  Counts are
rationals; a float division whose denominator is zero (IEEE `inf`/`NaN`)
is modelled as `none : Option ℚ`, a finite result `q` as `some q`.
-/

/-- A raw cell value as produced by `pd.read_csv`: either a number or
free text.  `str(x)` in Python is `pyStr`. -/
inductive RawVal where
  | intV (n : Int)
  | strV (s : String)
deriving DecidableEq, Repr

/-- Python `str(x)` on a cell value. -/
def pyStr : RawVal → String
  | .intV n => toString n
  | .strV s => s

/-- Numeric value of one digit character (Python `int` on a digit). -/
def digitVal (c : Char) : Nat := c.toNat - 48

/-- The scan performed by `re.search(r"\d{4}", s)` followed by
`int(m.group(0))`: walk the characters left to right and return the value
of the first four consecutive digit characters, or `none` when no
position starts four consecutive digits. -/
def firstFourDigits : List Char → Option Nat
  | [] => none
  | c :: rest =>
    match rest with
    | c2 :: c3 :: c4 :: _ =>
      if c.isDigit && c2.isDigit && c3.isDigit && c4.isDigit then
        some (digitVal c * 1000 + digitVal c2 * 100 + digitVal c3 * 10 + digitVal c4)
      else firstFourDigits rest
    | _ => none

/-- Embeds `extract_year` from `load_data`: stringify the cell, search for the
first run of four consecutive digits, return its integer value. -/
def extract_year (x : RawVal) : Option Nat :=
  firstFourDigits (pyStr x).data

/-- Embeds `pd.to_numeric(col, errors="coerce")` on one cell, restricted to the
value forms the model carries: a numeric cell passes through; a string
cell parses when it is a nonempty run of digits, otherwise coerces to
`NaN`, modelled as `none`. -/
def toNumeric : RawVal → Option ℚ
  | .intV n => some (n : ℚ)
  | .strV s =>
    if s.data.isEmpty then none
    else if s.data.all Char.isDigit then
      some ((s.data.foldl (fun acc c => acc * 10 + digitVal c) 0 : Nat) : ℚ)
    else none

/-- One CSV row after the `rename_map` renaming in `load_data`. -/
structure RawRow where
  year_label : RawVal
  births_clinic1 : RawVal
  deaths_clinic1 : RawVal
  births_clinic2 : RawVal
  deaths_clinic2 : RawVal
deriving DecidableEq, Repr

/-- One row of the final dataframe built by `load_data`: the original
label, the extracted year, the four coerced counts, and the two
per-period death-rate columns (`deaths / births` float division;
`none` stands for the non-finite result when births are zero). -/
structure ObservationRecord where
  year_label : RawVal
  year : Nat
  births_clinic1 : ℚ
  deaths_clinic1 : ℚ
  births_clinic2 : ℚ
  deaths_clinic2 : ℚ
  death_rate_c1 : Option ℚ
  death_rate_c2 : Option ℚ
deriving DecidableEq, Repr

/-- Build one dataframe row: lines 76-78 of the source compute
`deaths / births` directly, so a zero denominator yields a non-finite
float (`none`), not `0`. -/
def mkRecord (lab : RawVal) (y : Nat) (b1 d1 b2 d2 : ℚ) : ObservationRecord :=
  ⟨lab, y, b1, d1, b2, d2,
    if b1 = 0 then none else some (d1 / b1),
    if b2 = 0 then none else some (d2 / b2)⟩

/-- Pair a row with its extracted year; rows whose label has no
four-digit run are dropped (`dropna(subset=["year"])`). -/
def rowKeyed (r : RawRow) : Option (RawRow × Nat) :=
  (extract_year r.year_label).map (fun y => (r, y))

/-- Insert into a list sorted by the year component
(`sort_values("year")`, modelled as a stable insertion sort). -/
def insertByYear (x : RawRow × Nat) : List (RawRow × Nat) → List (RawRow × Nat)
  | [] => [x]
  | y :: ys => if x.2 ≤ y.2 then x :: y :: ys else y :: insertByYear x ys

/-- Sort rows by extracted year (`sort_values("year")`). -/
def sortByYear : List (RawRow × Nat) → List (RawRow × Nat)
  | [] => []
  | x :: xs => insertByYear x (sortByYear xs)

/-- Coerce the four count columns; a row with any coercion failure is
dropped (`dropna(subset=num_cols)`), otherwise the rate columns are
computed. -/
def coerceCounts (p : RawRow × Nat) : Option ObservationRecord :=
  match toNumeric p.1.births_clinic1, toNumeric p.1.deaths_clinic1,
        toNumeric p.1.births_clinic2, toNumeric p.1.deaths_clinic2 with
  | some b1, some d1, some b2, some d2 => some (mkRecord p.1.year_label p.2 b1 d1 b2 d2)
  | _, _, _, _ => none

/-- The row pipeline of `load_data` after the schema gate: extract years
and drop unparsable rows, sort by year, coerce counts and drop partial
rows, compute rate columns. -/
def loadRows (rows : List RawRow) : List ObservationRecord :=
  (sortByYear (rows.filterMap rowKeyed)).filterMap coerceCounts

/-- Composition of the per-row stages of `loadRows`: what a single input
row contributes to the dataset (ignoring the sort, which only reorders). -/
def rowParse (r : RawRow) : Option ObservationRecord :=
  (rowKeyed r).bind coerceCounts

/-- The required-column list, in the insertion order of `rename_map`. -/
def requiredColumns : List String :=
  ["Year", "Births in Clinic 1", "Deaths in Clinic 1",
   "Births in Clinic 2", "Deaths in Clinic 2"]

/-- Embeds `missing = [c for c in rename_map.keys() if c not in df_local.columns]`. -/
def missingColumns (cols : List String) : List String :=
  requiredColumns.filter (fun c => decide (c ∉ cols))

/-- The schema gate of `load_data`: raise `ValueError` carrying the whole
missing list when it is nonempty, otherwise pass the table through. -/
def validateColumns (cols : List String) : Except (List String) (List String) :=
  if missingColumns cols = [] then .ok cols else .error (missingColumns cols)

/-- Embeds `filtered = df[(df["year"] >= start_year) & (df["year"] <= end_year)]`:
inclusive range filter on the year key, preserving dataframe order. -/
def filteredDs (l : List ObservationRecord) (a b : Nat) : List ObservationRecord :=
  l.filter (fun r => decide (a ≤ r.year) && decide (r.year ≤ b))

/-- Embeds `int(df["year"].min())` over a nonempty dataframe. -/
def minKey : List ObservationRecord → Nat
  | [] => 0
  | r :: rs => rs.foldl (fun m x => Nat.min m x.year) r.year

/-- Embeds `int(df["year"].max())` over a nonempty dataframe. -/
def maxKey : List ObservationRecord → Nat
  | [] => 0
  | r :: rs => rs.foldl (fun m x => Nat.max m x.year) r.year

/-- Embeds `safe_rate(deaths, births)` from the source: `deaths / births` when
`births` is nonzero (truthy), else `0.0`. -/
def safe_rate (deaths births : ℚ) : ℚ :=
  if births = 0 then 0 else deaths / births

/-- The six KPI values computed from a filtered subset: column sums and
`safe_rate` of the pooled totals, per clinic. -/
structure SummaryMetrics where
  births_c1 : ℚ
  deaths_c1 : ℚ
  rate_c1 : ℚ
  births_c2 : ℚ
  deaths_c2 : ℚ
  rate_c2 : ℚ
deriving DecidableEq, Repr

/-- The KPI block of the source (lines 111-117): total births/deaths per
clinic summed over the filtered subset, overall rate via `safe_rate` on
the pooled totals. -/
def summarize (l : List ObservationRecord) : SummaryMetrics :=
  ⟨(l.map (·.births_clinic1)).sum,
   (l.map (·.deaths_clinic1)).sum,
   safe_rate (l.map (·.deaths_clinic1)).sum (l.map (·.births_clinic1)).sum,
   (l.map (·.births_clinic2)).sum,
   (l.map (·.deaths_clinic2)).sum,
   safe_rate (l.map (·.deaths_clinic2)).sum (l.map (·.births_clinic2)).sum⟩

/-- Spec-side notion for the regex contract: the substring of length 4
starting at character position `i` exists and consists of digits only
("a 4-consecutive-digit substring at position `i`"). -/
def fourDigitsAt (l : List Char) (i : Nat) : Bool :=
  decide (((l.drop i).take 4).length = 4) && ((l.drop i).take 4).all Char.isDigit

/-- Spec-side notion: the integer value of the length-4 substring at
position `i` (0 when there is none). -/
def fourValAt (l : List Char) (i : Nat) : Nat :=
  match (l.drop i).take 4 with
  | [a, b, c, d] => digitVal a * 1000 + digitVal b * 100 + digitVal c * 10 + digitVal d
  | _ => 0

/-- A concrete CSV row with zero births and nonzero deaths in clinic 1. -/
def zeroBirthsRow : RawRow :=
  ⟨.strV "1846", .strV "0", .strV "5", .strV "10", .strV "1"⟩

/-- A concrete CSV row labelled "1847 (Before)". -/
def beforeRow : RawRow :=
  ⟨.strV "1847 (Before)", .strV "100", .strV "5", .strV "90", .strV "10"⟩

/-- A concrete CSV row labelled "1847 (After)": same normalized year as
`beforeRow`, different counts. -/
def afterRow : RawRow :=
  ⟨.strV "1847 (After)", .strV "100", .strV "6", .strV "90", .strV "10"⟩

/-- A concrete CSV row whose clinic-1 births cell is the non-numeric
text "N/A". -/
def naRow : RawRow :=
  ⟨.strV "1841", .strV "N/A", .strV "5", .strV "10", .strV "1"⟩

/-- The dataset record `loadRows` builds from `zeroBirthsRow`. -/
def zeroBirthsRecord : ObservationRecord :=
  ⟨.strV "1846", 1846, 0, 5, 10, 1, none, some (1/10)⟩

/-- The dataset record `loadRows` builds from `beforeRow`. -/
def beforeRecord : ObservationRecord :=
  ⟨.strV "1847 (Before)", 1847, 100, 5, 90, 10, some (1/20), some (1/9)⟩

/-- The dataset record `loadRows` builds from `afterRow`. -/
def afterRecord : ObservationRecord :=
  ⟨.strV "1847 (After)", 1847, 100, 6, 90, 10, some (3/50), some (1/9)⟩

/-! ## Helper lemmas about the sort and the row pipeline -/

theorem insertByYear_perm (x : RawRow × Nat) (l : List (RawRow × Nat)) :
    (insertByYear x l).Perm (x :: l) := by
  induction l with
  | nil => simp [insertByYear]
  | cons y ys ih =>
    by_cases h : x.2 ≤ y.2
    · simp [insertByYear, h]
    · simp only [insertByYear, if_neg h]
      exact (ih.cons y).trans (List.Perm.swap x y ys)

theorem sortByYear_perm (l : List (RawRow × Nat)) : (sortByYear l).Perm l := by
  induction l with
  | nil => simp [sortByYear]
  | cons x xs ih =>
    exact (insertByYear_perm x (sortByYear xs)).trans (ih.cons x)

theorem mem_insertByYear {a x : RawRow × Nat} {l : List (RawRow × Nat)} :
    a ∈ insertByYear x l ↔ a = x ∨ a ∈ l := by
  rw [(insertByYear_perm x l).mem_iff, List.mem_cons]

theorem pairwise_insertByYear {x : RawRow × Nat} {l : List (RawRow × Nat)}
    (h : l.Pairwise (fun p q => p.2 ≤ q.2)) :
    (insertByYear x l).Pairwise (fun p q => p.2 ≤ q.2) := by
  induction l with
  | nil => simp [insertByYear]
  | cons y ys ih =>
    rcases List.pairwise_cons.mp h with ⟨hy, hys⟩
    by_cases hxy : x.2 ≤ y.2
    · rw [insertByYear, if_pos hxy]
      refine List.pairwise_cons.mpr ⟨?_, h⟩
      intro z hz
      rcases List.mem_cons.mp hz with hz | hz
      · exact hz ▸ hxy
      · exact le_trans hxy (hy z hz)
    · rw [insertByYear, if_neg hxy]
      refine List.pairwise_cons.mpr ⟨?_, ih hys⟩
      intro z hz
      rcases mem_insertByYear.mp hz with hz | hz
      · exact hz ▸ le_of_not_le hxy
      · exact hy z hz

theorem pairwise_sortByYear (l : List (RawRow × Nat)) :
    (sortByYear l).Pairwise (fun p q => p.2 ≤ q.2) := by
  induction l with
  | nil => simp [sortByYear]
  | cons x xs ih => exact pairwise_insertByYear ih

theorem insertByYear_eq_cons {x : RawRow × Nat} {l : List (RawRow × Nat)}
    (h : ∀ z ∈ l, x.2 ≤ z.2) : insertByYear x l = x :: l := by
  cases l with
  | nil => rfl
  | cons y ys => rw [insertByYear, if_pos (h y (List.mem_cons_self y ys))]

theorem filter_insertByYear (p : RawRow × Nat → Bool) (x : RawRow × Nat)
    (l : List (RawRow × Nat)) (hs : l.Pairwise (fun a b => a.2 ≤ b.2)) :
    (insertByYear x l).filter p =
      if p x then insertByYear x (l.filter p) else l.filter p := by
  induction l with
  | nil =>
    by_cases hx : p x <;> simp [insertByYear, List.filter_cons, hx]
  | cons y ys ih =>
    rcases List.pairwise_cons.mp hs with ⟨hy, hys⟩
    by_cases hxy : x.2 ≤ y.2
    · rw [insertByYear, if_pos hxy]
      by_cases hx : p x
      · rw [List.filter_cons, if_pos hx, if_pos hx]
        rw [insertByYear_eq_cons]
        intro z hz
        rcases List.mem_filter.mp hz with ⟨hz, _⟩
        rcases List.mem_cons.mp hz with hz | hz
        · exact hz ▸ hxy
        · exact le_trans hxy (hy z hz)
      · rw [List.filter_cons, if_neg hx, if_neg hx]
    · rw [insertByYear, if_neg hxy]
      by_cases hpy : p y
      · rw [List.filter_cons, if_pos hpy, ih hys, List.filter_cons, if_pos hpy]
        by_cases hx : p x
        · rw [if_pos hx, if_pos hx, insertByYear, if_neg hxy]
        · rw [if_neg hx, if_neg hx]
      · rw [List.filter_cons, if_neg hpy, ih hys, List.filter_cons, if_neg hpy]

theorem filter_sortByYear (p : RawRow × Nat → Bool) (l : List (RawRow × Nat)) :
    (sortByYear l).filter p = sortByYear (l.filter p) := by
  induction l with
  | nil => simp [sortByYear]
  | cons x xs ih =>
    rw [sortByYear, filter_insertByYear p x (sortByYear xs) (pairwise_sortByYear xs),
      List.filter_cons]
    by_cases hx : p x
    · rw [if_pos hx, if_pos hx, ih, sortByYear]
    · rw [if_neg hx, if_neg hx, ih]

theorem filterMap_filter_eq {α β : Type} (f : α → Option β) (q : α → Bool)
    (l : List α) (h : ∀ x, q x = false → f x = none) :
    (l.filter q).filterMap f = l.filterMap f := by
  induction l with
  | nil => rfl
  | cons x xs ih =>
    by_cases hq : q x
    · rw [List.filter_cons, if_pos hq, List.filterMap_cons, List.filterMap_cons]
      cases f x <;> simp [ih]
    · rw [List.filter_cons, if_neg (by simp [hq]), List.filterMap_cons,
        h x (by simp [hq]), ih]

theorem coerceCounts_fields {p : RawRow × Nat} {rec : ObservationRecord}
    (h : coerceCounts p = some rec) :
    rec.year = p.2 ∧ rec.year_label = p.1.year_label ∧
    toNumeric p.1.births_clinic1 = some rec.births_clinic1 ∧
    toNumeric p.1.deaths_clinic1 = some rec.deaths_clinic1 ∧
    toNumeric p.1.births_clinic2 = some rec.births_clinic2 ∧
    toNumeric p.1.deaths_clinic2 = some rec.deaths_clinic2 ∧
    rec.death_rate_c1 =
      (if rec.births_clinic1 = 0 then none else some (rec.deaths_clinic1 / rec.births_clinic1)) ∧
    rec.death_rate_c2 =
      (if rec.births_clinic2 = 0 then none else some (rec.deaths_clinic2 / rec.births_clinic2)) := by
  unfold coerceCounts at h
  split at h
  · rename_i b1 d1 b2 d2 h1 h2 h3 h4
    have hrec := Option.some_injective _ h
    subst hrec
    simp [mkRecord, h1, h2, h3, h4]
  · exact Option.noConfusion h

theorem rowParse_some {r : RawRow} {rec : ObservationRecord}
    (h : rowParse r = some rec) :
    rec.year_label = r.year_label ∧
    extract_year r.year_label = some rec.year ∧
    toNumeric r.births_clinic1 = some rec.births_clinic1 ∧
    toNumeric r.deaths_clinic1 = some rec.deaths_clinic1 ∧
    toNumeric r.births_clinic2 = some rec.births_clinic2 ∧
    toNumeric r.deaths_clinic2 = some rec.deaths_clinic2 ∧
    rec.death_rate_c1 =
      (if rec.births_clinic1 = 0 then none else some (rec.deaths_clinic1 / rec.births_clinic1)) ∧
    rec.death_rate_c2 =
      (if rec.births_clinic2 = 0 then none else some (rec.deaths_clinic2 / rec.births_clinic2)) := by
  unfold rowParse rowKeyed at h
  cases hy : extract_year r.year_label with
  | none => rw [hy] at h; simp at h
  | some y =>
    rw [hy] at h
    simp only [Option.map_some', Option.some_bind] at h
    rcases coerceCounts_fields h with ⟨hyr, hlab, hb1, hd1, hb2, hd2, hr1, hr2⟩
    exact ⟨hlab, by rw [hyr, ← hy], hb1, hd1, hb2, hd2, hr1, hr2⟩

theorem loadRows_perm (rows : List RawRow) :
    (loadRows rows).Perm (rows.filterMap rowParse) := by
  unfold loadRows
  have h1 := (sortByYear_perm (rows.filterMap rowKeyed)).filterMap coerceCounts
  rw [List.filterMap_filterMap] at h1
  exact h1

theorem mem_loadRows {rows : List RawRow} {rec : ObservationRecord} :
    rec ∈ loadRows rows ↔ ∃ row ∈ rows, rowParse row = some rec := by
  rw [(loadRows_perm rows).mem_iff, List.mem_filterMap]

theorem loadRows_sorted (rows : List RawRow) :
    (loadRows rows).Pairwise (fun a b => a.year ≤ b.year) := by
  unfold loadRows
  refine List.Pairwise.filterMap coerceCounts ?_
    (pairwise_sortByYear (rows.filterMap rowKeyed))
  intro p q hpq rec1 h1 rec2 h2
  rw [(coerceCounts_fields h1).1, (coerceCounts_fields h2).1]
  exact hpq

theorem foldl_min_le_init (l : List ObservationRecord) (init : Nat) :
    l.foldl (fun m x => Nat.min m x.year) init ≤ init := by
  induction l generalizing init with
  | nil => exact le_refl init
  | cons x xs ih =>
    exact le_trans (ih (Nat.min init x.year)) (Nat.min_le_left init x.year)

theorem foldl_min_le_mem (l : List ObservationRecord) (init : Nat)
    {r : ObservationRecord} (h : r ∈ l) :
    l.foldl (fun m x => Nat.min m x.year) init ≤ r.year := by
  induction l generalizing init with
  | nil => cases h
  | cons x xs ih =>
    rcases List.mem_cons.mp h with rfl | h
    · exact le_trans (foldl_min_le_init xs (Nat.min init r.year))
        (Nat.min_le_right init r.year)
    · exact ih (Nat.min init x.year) h

theorem foldl_max_ge_init (l : List ObservationRecord) (init : Nat) :
    init ≤ l.foldl (fun m x => Nat.max m x.year) init := by
  induction l generalizing init with
  | nil => exact le_refl init
  | cons x xs ih =>
    exact le_trans (Nat.le_max_left init x.year) (ih (Nat.max init x.year))

theorem foldl_max_ge_mem (l : List ObservationRecord) (init : Nat)
    {r : ObservationRecord} (h : r ∈ l) :
    r.year ≤ l.foldl (fun m x => Nat.max m x.year) init := by
  induction l generalizing init with
  | nil => cases h
  | cons x xs ih =>
    rcases List.mem_cons.mp h with rfl | h
    · exact le_trans (Nat.le_max_right init r.year)
        (foldl_max_ge_init xs (Nat.max init r.year))
    · exact ih (Nat.max init x.year) h

theorem minKey_le {d : List ObservationRecord} {r : ObservationRecord}
    (h : r ∈ d) : minKey d ≤ r.year := by
  cases d with
  | nil => cases h
  | cons x xs =>
    rcases List.mem_cons.mp h with rfl | h
    · exact foldl_min_le_init xs r.year
    · exact foldl_min_le_mem xs x.year h

theorem le_maxKey {d : List ObservationRecord} {r : ObservationRecord}
    (h : r ∈ d) : r.year ≤ maxKey d := by
  cases d with
  | nil => cases h
  | cons x xs =>
    rcases List.mem_cons.mp h with rfl | h
    · exact foldl_max_ge_init xs r.year
    · exact foldl_max_ge_mem xs x.year h

theorem sum_map_filter_eq_sum_ite (f : ObservationRecord → ℚ)
    (q : ObservationRecord → Bool) (l : List ObservationRecord) :
    ((l.filter q).map f).sum = (l.map (fun r => if q r then f r else 0)).sum := by
  induction l with
  | nil => rfl
  | cons x xs ih =>
    by_cases h : q x <;> simp [List.filter_cons, h, ih]

/-! ## Characterization of the four-digit scan -/

theorem fourDigitsAt_cons (c : Char) (l : List Char) (i : Nat) :
    fourDigitsAt (c :: l) (i + 1) = fourDigitsAt l i := by
  simp [fourDigitsAt, List.drop_succ_cons]

theorem fourValAt_cons (c : Char) (l : List Char) (i : Nat) :
    fourValAt (c :: l) (i + 1) = fourValAt l i := by
  simp [fourValAt, List.drop_succ_cons]

theorem fourDigitsAt_eq_false_of_short (l : List Char) (i : Nat)
    (h : l.length < i + 4) : fourDigitsAt l i = false := by
  have hlen : ((l.drop i).take 4).length ≠ 4 := by
    simp only [List.length_take, List.length_drop]
    omega
  unfold fourDigitsAt
  rw [decide_eq_false hlen, Bool.false_and]

theorem fourDigitsAt_short (l : List Char) (hl : l.length < 4) (i : Nat) :
    fourDigitsAt l i = false :=
  fourDigitsAt_eq_false_of_short l i (by omega)

theorem fourDigitsAt_zero (a b c d : Char) (t : List Char) :
    fourDigitsAt (a :: b :: c :: d :: t) 0 =
      (a.isDigit && (b.isDigit && (c.isDigit && (d.isDigit && true)))) := rfl

theorem fourValAt_zero (a b c d : Char) (t : List Char) :
    fourValAt (a :: b :: c :: d :: t) 0 =
      digitVal a * 1000 + digitVal b * 100 + digitVal c * 10 + digitVal d := rfl

theorem firstFourDigits_eq_none (l : List Char) :
    firstFourDigits l = none → ∀ i, fourDigitsAt l i = false := by
  induction l with
  | nil => exact fun _ i => fourDigitsAt_short [] (by simp) i
  | cons c rest ih =>
    intro h i
    rcases rest with _ | ⟨c2, rest2⟩
    · exact fourDigitsAt_short [c] (by simp) i
    rcases rest2 with _ | ⟨c3, rest3⟩
    · exact fourDigitsAt_short [c, c2] (by simp) i
    rcases rest3 with _ | ⟨c4, t⟩
    · exact fourDigitsAt_short [c, c2, c3] (by simp) i
    simp only [firstFourDigits] at h
    by_cases hd : (c.isDigit && c2.isDigit && c3.isDigit && c4.isDigit) = true
    · rw [if_pos hd] at h
      exact absurd h (by simp)
    · rw [if_neg hd] at h
      cases i with
      | zero =>
        have hdf : (c.isDigit && c2.isDigit && c3.isDigit && c4.isDigit) = false :=
          Bool.eq_false_iff.mpr hd
        simpa [fourDigitsAt_zero, Bool.and_assoc] using hdf
      | succ j =>
        rw [fourDigitsAt_cons]
        exact ih h j

theorem firstFourDigits_eq_some (l : List Char) :
    ∀ k, firstFourDigits l = some k →
      ∃ i, fourDigitsAt l i = true ∧ (∀ j, j < i → fourDigitsAt l j = false) ∧
        fourValAt l i = k := by
  induction l with
  | nil => intro k h; simp [firstFourDigits] at h
  | cons c rest ih =>
    intro k h
    rcases rest with _ | ⟨c2, rest2⟩
    · simp [firstFourDigits] at h
    rcases rest2 with _ | ⟨c3, rest3⟩
    · simp [firstFourDigits] at h
    rcases rest3 with _ | ⟨c4, t⟩
    · simp [firstFourDigits] at h
    simp only [firstFourDigits] at h
    by_cases hd : (c.isDigit && c2.isDigit && c3.isDigit && c4.isDigit) = true
    · rw [if_pos hd] at h
      have hk := Option.some_injective _ h
      refine ⟨0, ?_, ?_, ?_⟩
      · simp only [Bool.and_eq_true] at hd
        obtain ⟨⟨⟨h1, h2⟩, h3⟩, h4⟩ := hd
        simp [fourDigitsAt_zero, h1, h2, h3, h4]
      · intro j hj
        exact absurd hj (Nat.not_lt_zero j)
      · rw [fourValAt_zero]
        exact hk
    · rw [if_neg hd] at h
      obtain ⟨i, hi1, hi2, hi3⟩ := ih k h
      refine ⟨i + 1, ?_, ?_, ?_⟩
      · rw [fourDigitsAt_cons]
        exact hi1
      · intro j hj
        cases j with
        | zero =>
          have hdf : (c.isDigit && c2.isDigit && c3.isDigit && c4.isDigit) = false :=
            Bool.eq_false_iff.mpr hd
          simpa [fourDigitsAt_zero, Bool.and_assoc] using hdf
        | succ j' =>
          rw [fourDigitsAt_cons]
          exact hi2 j' (by omega)
      · rw [fourValAt_cons]
        exact hi3

theorem coerceCounts_eq_none {p : RawRow × Nat}
    (h : toNumeric p.1.births_clinic1 = none ∨ toNumeric p.1.deaths_clinic1 = none ∨
      toNumeric p.1.births_clinic2 = none ∨ toNumeric p.1.deaths_clinic2 = none) :
    coerceCounts p = none := by
  cases hc : coerceCounts p with
  | none => rfl
  | some rec =>
    rcases coerceCounts_fields hc with ⟨_, _, hb1, hd1, hb2, hd2, _, _⟩
    rcases h with h | h | h | h
    · rw [h] at hb1; exact Option.noConfusion hb1
    · rw [h] at hd1; exact Option.noConfusion hd1
    · rw [h] at hb2; exact Option.noConfusion hb2
    · rw [h] at hd2; exact Option.noConfusion hd2

theorem rowParse_eq_none {r : RawRow}
    (h : toNumeric r.births_clinic1 = none ∨ toNumeric r.deaths_clinic1 = none ∨
      toNumeric r.births_clinic2 = none ∨ toNumeric r.deaths_clinic2 = none) :
    rowParse r = none := by
  unfold rowParse rowKeyed
  cases hy : extract_year r.year_label with
  | none => rfl
  | some y =>
    simp only [Option.map_some', Option.some_bind]
    exact coerceCounts_eq_none h

theorem filterMap_rowKeyed_filter (q : RawRow → Bool) (rows : List RawRow) :
    (rows.filter q).filterMap rowKeyed =
      (rows.filterMap rowKeyed).filter (fun p => q p.1) := by
  induction rows with
  | nil => rfl
  | cons r rs ih =>
    cases hy : extract_year r.year_label with
    | none =>
      by_cases hq : q r <;>
        simp [List.filter_cons, hq, List.filterMap_cons, rowKeyed, hy, ih]
    | some y =>
      by_cases hq : q r <;>
        simp [List.filter_cons, hq, List.filterMap_cons, rowKeyed, hy, ih]


/-! ## Evaluation lemmas for concrete inputs -/

theorem toNumeric_strV_digits (s : String) (n : Nat)
    (h1 : s.data.isEmpty = false) (h2 : s.data.all Char.isDigit = true)
    (h3 : s.data.foldl (fun acc c => acc * 10 + digitVal c) 0 = n) :
    toNumeric (.strV s) = some ((n : Nat) : ℚ) := by
  simp [toNumeric, h1, h2, h3]

theorem rowParse_eval (r : RawRow) (y : Nat) (b1 d1 b2 d2 : ℚ)
    (hy : extract_year r.year_label = some y)
    (h1 : toNumeric r.births_clinic1 = some b1)
    (h2 : toNumeric r.deaths_clinic1 = some d1)
    (h3 : toNumeric r.births_clinic2 = some b2)
    (h4 : toNumeric r.deaths_clinic2 = some d2) :
    rowParse r = some (mkRecord r.year_label y b1 d1 b2 d2) := by
  unfold rowParse rowKeyed coerceCounts
  rw [hy]
  simp only [Option.map_some', Option.some_bind]
  rw [h1, h2, h3, h4]

theorem loadRows_singleton (r : RawRow) : loadRows [r] = (rowParse r).toList := by
  unfold loadRows rowParse
  cases hk : rowKeyed r with
  | none => simp [hk, sortByYear]
  | some p =>
    simp only [List.filterMap_cons, List.filterMap_nil, hk, sortByYear, insertByYear]
    cases hc : coerceCounts p <;> simp [hc]

theorem loadRows_pair_sorted (r1 r2 : RawRow) (rec1 rec2 : ObservationRecord)
    (h1 : rowParse r1 = some rec1) (h2 : rowParse r2 = some rec2)
    (hle : rec1.year ≤ rec2.year) :
    loadRows [r1, r2] = [rec1, rec2] := by
  cases hk1 : rowKeyed r1 with
  | none => rw [rowParse, hk1] at h1; simp at h1
  | some p1 =>
    cases hk2 : rowKeyed r2 with
    | none => rw [rowParse, hk2] at h2; simp at h2
    | some p2 =>
      rw [rowParse, hk1, Option.some_bind] at h1
      rw [rowParse, hk2, Option.some_bind] at h2
      have hy1 := (coerceCounts_fields h1).1
      have hy2 := (coerceCounts_fields h2).1
      have hple : p1.2 ≤ p2.2 := by rw [← hy1, ← hy2]; exact hle
      unfold loadRows
      simp only [List.filterMap_cons, List.filterMap_nil, hk1, hk2,
        sortByYear, insertByYear, if_pos hple]
      simp [List.filterMap_cons, h1, h2]

theorem rowParse_zeroBirthsRow : rowParse zeroBirthsRow = some zeroBirthsRecord := by
  have hy : extract_year zeroBirthsRow.year_label = some 1846 := by decide
  have h1 := toNumeric_strV_digits "0" 0 (by decide) (by decide) (by decide)
  have h2 := toNumeric_strV_digits "5" 5 (by decide) (by decide) (by decide)
  have h3 := toNumeric_strV_digits "10" 10 (by decide) (by decide) (by decide)
  have h4 := toNumeric_strV_digits "1" 1 (by decide) (by decide) (by decide)
  rw [rowParse_eval zeroBirthsRow 1846 _ _ _ _ hy h1 h2 h3 h4]
  norm_num [mkRecord, zeroBirthsRecord, zeroBirthsRow]

theorem rowParse_beforeRow : rowParse beforeRow = some beforeRecord := by
  have hy : extract_year beforeRow.year_label = some 1847 := by decide
  have h1 := toNumeric_strV_digits "100" 100 (by decide) (by decide) (by decide)
  have h2 := toNumeric_strV_digits "5" 5 (by decide) (by decide) (by decide)
  have h3 := toNumeric_strV_digits "90" 90 (by decide) (by decide) (by decide)
  have h4 := toNumeric_strV_digits "10" 10 (by decide) (by decide) (by decide)
  rw [rowParse_eval beforeRow 1847 _ _ _ _ hy h1 h2 h3 h4]
  norm_num [mkRecord, beforeRecord, beforeRow]

theorem rowParse_afterRow : rowParse afterRow = some afterRecord := by
  have hy : extract_year afterRow.year_label = some 1847 := by decide
  have h1 := toNumeric_strV_digits "100" 100 (by decide) (by decide) (by decide)
  have h2 := toNumeric_strV_digits "6" 6 (by decide) (by decide) (by decide)
  have h3 := toNumeric_strV_digits "90" 90 (by decide) (by decide) (by decide)
  have h4 := toNumeric_strV_digits "10" 10 (by decide) (by decide) (by decide)
  rw [rowParse_eval afterRow 1847 _ _ _ _ hy h1 h2 h3 h4]
  norm_num [mkRecord, afterRecord, afterRow]

theorem loadRows_zeroBirthsRow : loadRows [zeroBirthsRow] = [zeroBirthsRecord] := by
  rw [loadRows_singleton, rowParse_zeroBirthsRow]
  rfl

theorem loadRows_beforeRow : loadRows [beforeRow] = [beforeRecord] := by
  rw [loadRows_singleton, rowParse_beforeRow]
  rfl

theorem loadRows_beforeAfter :
    loadRows [beforeRow, afterRow] = [beforeRecord, afterRecord] :=
  loadRows_pair_sorted beforeRow afterRow beforeRecord afterRecord
    rowParse_beforeRow rowParse_afterRow (le_refl 1847)

/-! ## Claim theorems -/

/-- C1 counterexample: loading a row with zero births and five deaths in
clinic 1 retains the record, and its per-period rate column holds the
non-finite division result (`none`), not `0` — refuting the claim that
the per-period rate equals 0 when births = 0. -/
theorem C1_counterexample :
    loadRows [zeroBirthsRow] = [zeroBirthsRecord] ∧
    zeroBirthsRecord.births_clinic1 = 0 ∧
    zeroBirthsRecord.deaths_clinic1 = 5 ∧
    zeroBirthsRecord.death_rate_c1 ≠ some 0 := by
  refine ⟨loadRows_zeroBirthsRow, rfl, rfl, ?_⟩
  intro h
  exact Option.noConfusion h

/-- C1 (amended): for every record in a loaded Dataset, the per-period
rate of each cohort is `deaths / births` whenever births are nonzero;
when births are zero the code divides anyway and the rate column holds a
non-finite float (inf or NaN, modelled `none`), not 0 — the
zero-births-yields-0 policy applies only to the pooled `safe_rate`. -/
theorem C1_per_period_rate (rows : List RawRow) (rec : ObservationRecord)
    (h : rec ∈ loadRows rows) :
    (rec.births_clinic1 ≠ 0 →
      rec.death_rate_c1 = some (rec.deaths_clinic1 / rec.births_clinic1)) ∧
    (rec.births_clinic1 = 0 → rec.death_rate_c1 = none) ∧
    (rec.births_clinic2 ≠ 0 →
      rec.death_rate_c2 = some (rec.deaths_clinic2 / rec.births_clinic2)) ∧
    (rec.births_clinic2 = 0 → rec.death_rate_c2 = none) := by
  obtain ⟨row, hrow, hp⟩ := mem_loadRows.mp h
  rcases rowParse_some hp with ⟨_, _, _, _, _, _, hr1, hr2⟩
  refine ⟨?_, ?_, ?_, ?_⟩ <;> intro hb <;> simp [hr1, hr2, hb]

/-- C1 witness: the amended statement applied to the concrete
zero-births load. -/
theorem C1_per_period_rate_witness :
    zeroBirthsRecord ∈ loadRows [zeroBirthsRow] ∧
    (zeroBirthsRecord.births_clinic1 = 0 → zeroBirthsRecord.death_rate_c1 = none) := by
  have hmem : zeroBirthsRecord ∈ loadRows [zeroBirthsRow] := by
    rw [loadRows_zeroBirthsRow]
    exact List.mem_singleton.mpr rfl
  exact ⟨hmem, (C1_per_period_rate [zeroBirthsRow] zeroBirthsRecord hmem).2.1⟩

/-- C2 counterexample: two input rows labelled "1847 (Before)" and
"1847 (After)" both normalize to period key 1847 and are both retained
as distinct records — refuting per-record key uniqueness, strict
increase, and the reject-or-merge handling of duplicates. -/
theorem C2_counterexample :
    loadRows [beforeRow, afterRow] = [beforeRecord, afterRecord] ∧
    beforeRecord.year = 1847 ∧ afterRecord.year = 1847 ∧
    beforeRecord ≠ afterRecord := by
  refine ⟨loadRows_beforeAfter, rfl, rfl, ?_⟩
  intro h
  have hlab := congrArg ObservationRecord.year_label h
  exact absurd hlab (by decide)

/-- C2 (amended): every loaded Dataset is ordered non-decreasingly (not
strictly) by period key and consists of exactly the fully parsed input
rows — rows normalizing to the same period key are all retained as-is,
neither rejected nor merged, so the key need not be unique. -/
theorem C2_sorted_duplicates_kept (rows : List RawRow) :
    (loadRows rows).Pairwise (fun a b => a.year ≤ b.year) ∧
    (loadRows rows).Perm (rows.filterMap rowParse) :=
  ⟨loadRows_sorted rows, loadRows_perm rows⟩

/-- C3: the Aggregator's overall rate per cohort is computed on the
pooled totals — the summed deaths divided by the summed births, with
the zero-births-yields-0 policy — for every dataset subset. -/
theorem C3_overall_rate_pooled (l : List ObservationRecord) :
    ((l.map (·.births_clinic1)).sum ≠ 0 →
      (summarize l).rate_c1 =
        (l.map (·.deaths_clinic1)).sum / (l.map (·.births_clinic1)).sum) ∧
    ((l.map (·.births_clinic1)).sum = 0 → (summarize l).rate_c1 = 0) ∧
    ((l.map (·.births_clinic2)).sum ≠ 0 →
      (summarize l).rate_c2 =
        (l.map (·.deaths_clinic2)).sum / (l.map (·.births_clinic2)).sum) ∧
    ((l.map (·.births_clinic2)).sum = 0 → (summarize l).rate_c2 = 0) := by
  refine ⟨?_, ?_, ?_, ?_⟩ <;> intro h <;> simp [summarize, safe_rate, h]

/-- C3 witness: pooled overall rate on a concrete one-record subset. -/
theorem C3_overall_rate_pooled_witness :
    (([beforeRecord].map (·.births_clinic1)).sum ≠ 0) ∧
    (summarize [beforeRecord]).rate_c1 =
      ([beforeRecord].map (·.deaths_clinic1)).sum /
        ([beforeRecord].map (·.births_clinic1)).sum := by
  have hsum : ([beforeRecord].map (·.births_clinic1)).sum ≠ 0 := by
    norm_num [beforeRecord]
  exact ⟨hsum, (C3_overall_rate_pooled [beforeRecord]).1 hsum⟩

/-- C4: summarizing an empty subset yields all-zero totals and zero
rates for both cohorts, never an error. -/
theorem C4_empty_summary :
    summarize [] = ⟨0, 0, 0, 0, 0, 0⟩ ∧
    ∀ (d : List ObservationRecord) (a b : Nat),
      filteredDs d a b = [] → summarize (filteredDs d a b) = ⟨0, 0, 0, 0, 0, 0⟩ := by
  have h0 : summarize [] = ⟨0, 0, 0, 0, 0, 0⟩ := by
    simp [summarize, safe_rate]
  exact ⟨h0, fun d a b h => by rw [h]; exact h0⟩

/-- C4 witness: an empty range on an empty dataset. -/
theorem C4_empty_summary_witness :
    filteredDs [] 0 0 = [] ∧ summarize (filteredDs [] 0 0) = ⟨0, 0, 0, 0, 0, 0⟩ :=
  ⟨rfl, C4_empty_summary.2 [] 0 0 rfl⟩

/-- C5: the schema gate computes exactly the set of required columns
absent from the table, reports all of them in a single failure, and
passes the table through unchanged when none is missing. -/
theorem C5_schema_gate (cols : List String) :
    (∀ c, c ∈ missingColumns cols ↔ (c ∈ requiredColumns ∧ c ∉ cols)) ∧
    (missingColumns cols = [] → validateColumns cols = .ok cols) ∧
    (missingColumns cols ≠ [] → validateColumns cols = .error (missingColumns cols)) := by
  refine ⟨?_, ?_, ?_⟩
  · intro c
    simp [missingColumns, List.mem_filter]
  · intro h
    simp [validateColumns, h]
  · intro h
    simp [validateColumns, h]

/-- C5 witness: a table exposing only the Year column fails with the
missing count columns reported together. -/
theorem C5_schema_gate_witness :
    (missingColumns ["Year"] ≠ []) ∧
    validateColumns ["Year"] = .error (missingColumns ["Year"]) :=
  ⟨by decide, (C5_schema_gate ["Year"]).2.2 (by decide)⟩

/-- C6: rows whose raw period text has no four-consecutive-digit
substring are dropped (the Dataset is unchanged when they are removed
from the input); every retained record keeps its raw text as its label
and has the extraction result as its key; extraction fails exactly when
no position of the stringified text starts four consecutive digits, and
succeeds with the value of the first such position. -/
theorem C6_period_normalization (rows : List RawRow) :
    loadRows rows = loadRows (rows.filter (fun r => (extract_year r.year_label).isSome)) ∧
    (∀ rec ∈ loadRows rows, ∃ row ∈ rows, rec.year_label = row.year_label ∧
      extract_year row.year_label = some rec.year) ∧
    (∀ v : RawVal, (∀ i, fourDigitsAt (pyStr v).data i = false) → extract_year v = none) ∧
    (∀ (v : RawVal) (k : Nat), extract_year v = some k →
      ∃ i, fourDigitsAt (pyStr v).data i = true ∧
        (∀ j, j < i → fourDigitsAt (pyStr v).data j = false) ∧
        fourValAt (pyStr v).data i = k) := by
  refine ⟨?_, ?_, ?_, ?_⟩
  · have hnone : ∀ r : RawRow,
        (fun r : RawRow => (extract_year r.year_label).isSome) r = false →
          rowKeyed r = none := by
      intro r h
      cases he : extract_year r.year_label with
      | none => simp [rowKeyed, he]
      | some k => simp [he] at h
    unfold loadRows
    rw [filterMap_filter_eq rowKeyed _ rows hnone]
  · intro rec hrec
    obtain ⟨row, hrow, hp⟩ := mem_loadRows.mp hrec
    rcases rowParse_some hp with ⟨hlab, hy, _⟩
    exact ⟨row, hrow, hlab, hy⟩
  · intro v h
    cases he : extract_year v with
    | none => rfl
    | some k =>
      obtain ⟨i, hi, _, _⟩ := firstFourDigits_eq_some (pyStr v).data k he
      rw [h i] at hi
      exact Bool.noConfusion hi
  · intro v k h
    exact firstFourDigits_eq_some (pyStr v).data k h

/-- C6 witness: the "1847 (Before)" row keeps its label and gets key
1847. -/
theorem C6_period_normalization_witness :
    beforeRecord ∈ loadRows [beforeRow] ∧
    (∃ row ∈ [beforeRow], beforeRecord.year_label = row.year_label ∧
      extract_year row.year_label = some beforeRecord.year) := by
  have hmem : beforeRecord ∈ loadRows [beforeRow] := by
    rw [loadRows_beforeRow]
    exact List.mem_singleton.mpr rfl
  exact ⟨hmem, (C6_period_normalization [beforeRow]).2.1 beforeRecord hmem⟩

/-- C7: a row any of whose four count cells fails numeric coercion
contributes nothing to the Dataset (removing such rows from the input
leaves the Dataset unchanged, and such a row parses to no record), and
every retained record carries the four successfully coerced counts of
its source row — the all-or-nothing row policy. -/
theorem C7_all_or_nothing (rows : List RawRow) :
    loadRows rows = loadRows (rows.filter (fun r =>
      (toNumeric r.births_clinic1).isSome && (toNumeric r.deaths_clinic1).isSome &&
      (toNumeric r.births_clinic2).isSome && (toNumeric r.deaths_clinic2).isSome)) ∧
    (∀ r : RawRow, (toNumeric r.births_clinic1 = none ∨ toNumeric r.deaths_clinic1 = none ∨
      toNumeric r.births_clinic2 = none ∨ toNumeric r.deaths_clinic2 = none) →
      rowParse r = none) ∧
    (∀ rec ∈ loadRows rows, ∃ row ∈ rows,
      toNumeric row.births_clinic1 = some rec.births_clinic1 ∧
      toNumeric row.deaths_clinic1 = some rec.deaths_clinic1 ∧
      toNumeric row.births_clinic2 = some rec.births_clinic2 ∧
      toNumeric row.deaths_clinic2 = some rec.deaths_clinic2) := by
  refine ⟨?_, fun r h => rowParse_eq_none h, ?_⟩
  · have hnone : ∀ p : RawRow × Nat,
        (fun p : RawRow × Nat =>
          (toNumeric p.1.births_clinic1).isSome && (toNumeric p.1.deaths_clinic1).isSome &&
          (toNumeric p.1.births_clinic2).isSome && (toNumeric p.1.deaths_clinic2).isSome) p
            = false →
          coerceCounts p = none := by
      intro p hq
      cases h1 : toNumeric p.1.births_clinic1 with
      | none => exact coerceCounts_eq_none (Or.inl h1)
      | some b1 =>
        cases h2 : toNumeric p.1.deaths_clinic1 with
        | none => exact coerceCounts_eq_none (Or.inr (Or.inl h2))
        | some d1 =>
          cases h3 : toNumeric p.1.births_clinic2 with
          | none => exact coerceCounts_eq_none (Or.inr (Or.inr (Or.inl h3)))
          | some b2 =>
            cases h4 : toNumeric p.1.deaths_clinic2 with
            | none => exact coerceCounts_eq_none (Or.inr (Or.inr (Or.inr h4)))
            | some d2 => simp [h1, h2, h3, h4] at hq
    symm
    unfold loadRows
    rw [filterMap_rowKeyed_filter _ rows, ← filter_sortByYear,
      filterMap_filter_eq coerceCounts _ _ hnone]
  · intro rec hrec
    obtain ⟨row, hrow, hp⟩ := mem_loadRows.mp hrec
    rcases rowParse_some hp with ⟨_, _, hb1, hd1, hb2, hd2, _, _⟩
    exact ⟨row, hrow, hb1, hd1, hb2, hd2⟩

/-- C7 witness: a row whose clinic-1 births cell reads "N/A" parses to
no record. -/
theorem C7_all_or_nothing_witness :
    toNumeric naRow.births_clinic1 = none ∧ rowParse naRow = none := by
  have hna : toNumeric naRow.births_clinic1 = none := by
    have he : ("N/A".data.isEmpty) = false := by decide
    have hd : ("N/A".data.all Char.isDigit) = false := by decide
    simp [naRow, toNumeric, he, hd]
  exact ⟨hna, (C7_all_or_nothing []).2.1 naRow (Or.inl hna)⟩

/-- C8: the range filter keeps exactly the records whose key lies in the
inclusive range, preserves the Dataset's order (the result is a
sublist), and filtering a nonempty Dataset with its own minimum and
maximum keys returns it unchanged. -/
theorem C8_range_filter (d : List ObservationRecord) (a b : Nat) :
    (∀ r, r ∈ filteredDs d a b ↔ (r ∈ d ∧ a ≤ r.year ∧ r.year ≤ b)) ∧
    (filteredDs d a b).Sublist d ∧
    (d ≠ [] → filteredDs d (minKey d) (maxKey d) = d) := by
  refine ⟨?_, List.filter_sublist d, ?_⟩
  · intro r
    rw [filteredDs, List.mem_filter]
    simp
  · intro _
    rw [filteredDs, List.filter_eq_self]
    intro r hr
    simp [minKey_le hr, le_maxKey hr]

/-- C8 witness: min/max filtering of a concrete one-record Dataset. -/
theorem C8_range_filter_witness :
    ([beforeRecord] ≠ ([] : List ObservationRecord)) ∧
    filteredDs [beforeRecord] (minKey [beforeRecord]) (maxKey [beforeRecord]) =
      [beforeRecord] :=
  ⟨by simp, (C8_range_filter [beforeRecord] 0 0).2.2 (by simp)⟩

/-- C9: the totals of the summary of a range-filtered Dataset equal the
sums of the per-record counts over exactly the records whose key lies
in the inclusive range. -/
theorem C9_filtered_totals (d : List ObservationRecord) (a b : Nat) :
    (summarize (filteredDs d a b)).births_c1 =
      (d.map (fun r => if a ≤ r.year ∧ r.year ≤ b then r.births_clinic1 else 0)).sum ∧
    (summarize (filteredDs d a b)).deaths_c1 =
      (d.map (fun r => if a ≤ r.year ∧ r.year ≤ b then r.deaths_clinic1 else 0)).sum ∧
    (summarize (filteredDs d a b)).births_c2 =
      (d.map (fun r => if a ≤ r.year ∧ r.year ≤ b then r.births_clinic2 else 0)).sum ∧
    (summarize (filteredDs d a b)).deaths_c2 =
      (d.map (fun r => if a ≤ r.year ∧ r.year ≤ b then r.deaths_clinic2 else 0)).sum := by
  have key : ∀ f : ObservationRecord → ℚ,
      ((filteredDs d a b).map f).sum =
        (d.map (fun r => if a ≤ r.year ∧ r.year ≤ b then f r else 0)).sum := by
    intro f
    rw [filteredDs, sum_map_filter_eq_sum_ite]
    have hfun : ∀ r : ObservationRecord,
        (if (decide (a ≤ r.year) && decide (r.year ≤ b)) = true then f r else 0) =
          (if a ≤ r.year ∧ r.year ≤ b then f r else 0) := by
      intro r
      by_cases h1 : a ≤ r.year <;> by_cases h2 : r.year ≤ b <;> simp [h1, h2]
    simp only [hfun]
  exact ⟨key _, key _, key _, key _⟩

/-- C10: year extraction stringifies its input before matching; on text
whose first digit run is longer than four digits it takes the first
four ("18475" gives 1847); a numeric year cell such as the integer 1847
normalizes to 1847; and whenever four digit characters lead the text
the result is their value. -/
theorem C10_year_extraction :
    extract_year (.strV "18475") = some 1847 ∧
    extract_year (.intV 1847) = some 1847 ∧
    (∀ n : Int, extract_year (.intV n) = extract_year (.strV (toString n))) ∧
    (∀ (a b c d : Char) (t : List Char), a.isDigit = true → b.isDigit = true →
      c.isDigit = true → d.isDigit = true →
      firstFourDigits (a :: b :: c :: d :: t) =
        some (digitVal a * 1000 + digitVal b * 100 + digitVal c * 10 + digitVal d)) := by
  refine ⟨by decide, by decide, fun n => rfl, ?_⟩
  intro a b c d t ha hb hc hd
  simp [firstFourDigits, ha, hb, hc, hd]

/-- C10 witness: the leading-digits conjunct at a concrete string. -/
theorem C10_year_extraction_witness :
    (('1' : Char).isDigit = true) ∧
    firstFourDigits ['1', '8', '4', '7'] =
      some (digitVal '1' * 1000 + digitVal '8' * 100 + digitVal '4' * 10 + digitVal '7') :=
  ⟨by decide, C10_year_extraction.2.2.2 '1' '8' '4' '7' []
    (by decide) (by decide) (by decide) (by decide)⟩
